import Mathlib

/-!
Verification of the mooc-pdf-download repository (Rust) against its
natural-language specification.

The source files `src/main.rs`, `src/query_string.rs` and `src/cookies.rs`
are shallowly embedded below.  Byte buffers are modelled as `List Nat`
(each element the value of one byte); numeric byte literals are annotated
with the ASCII text they spell.  Fallible Rust code (`Result`, panics via
`unwrap`/`expect`) is modelled with `Except`/`Option`, a panic being an
`Except.error`/dedicated constructor carrying the panic message.
-/

/-! ## Generic byte-level utilities

These model the primitive operations the Rust code uses:
`slice::split` (`splitByte`), `memchr::memchr` (`memchr`),
`memchr::memmem::find_iter(..).next()` (`findSub`), literal matching
(`stripLit`), and maximal digit runs (`takeDigits`, the `[0-9]+` part of
the regexes, see the fidelity notes at `tryMatchAt`). -/

/-- Is the byte an ASCII digit `0`-`9` (values 48-57)?  Models the regex
class `[0-9]` of `bytes::Regex` in `main.rs`. -/
def digitB (b : Nat) : Bool := decide (48 ≤ b) && decide (b ≤ 57)

/-- All bytes of the list are ASCII digits. -/
def allDigits (l : List Nat) : Bool := l.all digitB

/-- Strip a literal byte sequence from the front of a buffer, returning the
remainder, or `none` when the buffer does not start with the literal. -/
def stripLit : List Nat → List Nat → Option (List Nat)
  | [], t => some t
  | _ :: _, [] => none
  | p :: ps, b :: bs => if p = b then stripLit ps bs else none

/-- Take the maximal run of ASCII-digit bytes from the front of a buffer,
returning the run and the remainder. -/
def takeDigits : List Nat → List Nat × List Nat
  | [] => ([], [])
  | b :: bs =>
    if digitB b then
      let p := takeDigits bs
      (b :: p.1, p.2)
    else ([], b :: bs)

/-- Does the buffer start with the given literal? -/
def occursAt (pat t : List Nat) : Bool := (stripLit pat t).isSome

/-- Index of the first occurrence of `pat` as a contiguous subsequence of
the buffer.  Models `memchr::memmem::find_iter(buffer, pat).next()`. -/
def findSub (pat : List Nat) : List Nat → Option Nat
  | [] => if occursAt pat [] then some 0 else none
  | b :: bs =>
    if occursAt pat (b :: bs) then some 0
    else (findSub pat bs).map (· + 1)

/-- Index of the first occurrence of byte `b`.  Models `memchr::memchr`. -/
def memchr (b : Nat) : List Nat → Option Nat
  | [] => none
  | x :: xs => if x = b then some 0 else (memchr b xs).map (· + 1)

/-- Split a buffer at every occurrence of the byte `sep`, the separators not
included in the chunks.  Models `slice::split(|&b| b == sep)`: `n`
separators yield `n + 1` chunks, so a trailing separator yields a trailing
empty chunk and the empty buffer yields one empty chunk. -/
def splitByte (sep : Nat) : List Nat → List (List Nat)
  | [] => [[]]
  | b :: bs =>
    if b = sep then [] :: splitByte sep bs
    else
      match splitByte sep bs with
      | [] => [[b]]
      | h :: t => (b :: h) :: t

/-- Join chunks with the byte 59 (`;`) between them.  Models
`Vec::join(";")` in `cookies.rs`. -/
def joinSemi : List (List Nat) → List Nat
  | [] => []
  | [x] => x
  | x :: y :: xs => x ++ 59 :: joinSemi (y :: xs)

/-- Monadic map over `Except`, stopping at the first error.  Models a Rust
iterator whose closure can fail (`?` inside a loop) or panic (`expect`
inside `map(..).collect()`): the first failing element's error is the
overall outcome and later elements are not processed. -/
def mapE {α β ε : Type} (g : α → Except ε β) : List α → Except ε (List β)
  | [] => .ok []
  | a :: as =>
    match g a with
    | .error e => .error e
    | .ok b =>
      match mapE g as with
      | .error e => .error e
      | .ok bs => .ok (b :: bs)

/-! ## Model of `src/query_string.rs`

`unquote` splits on `%` (byte 37), keeps the first chunk verbatim, and for
every later chunk either decodes its first two bytes as hex or restores the
`%` literally; the decoded bytes then pass through `String::from_utf8`,
which fails exactly on invalid UTF-8.  `unquote_plus` first replaces `+`
(43) with a space (32). -/

/-- Model of `hex_char_to_dec` in `query_string.rs`. -/
def hex_char_to_dec (n : Nat) : Option Nat :=
  if 48 ≤ n ∧ n ≤ 57 then some (n - 48)          -- '0'..'9'
  else if 65 ≤ n ∧ n ≤ 70 then some (n - 65 + 10) -- 'A'..'F'
  else if 97 ≤ n ∧ n ≤ 102 then some (n - 97 + 10) -- 'a'..'f'
  else none

/-- Model of `to_digit` in `query_string.rs`. -/
def to_digit (n1 n2 : Nat) : Option Nat :=
  match hex_char_to_dec n1, hex_char_to_dec n2 with
  | some x, some y => some (x * 16 + y)
  | _, _ => none

/-- Processing of one post-`%` chunk in `unquote`: an empty chunk restores a
bare `%`, a one-byte chunk restores `%` plus that byte, and a longer chunk
either hex-decodes its first two bytes or passes `%` and the chunk through
literally. -/
def decodeChunk : List Nat → List Nat
  | [] => [37]
  | [a] => [37, a]
  | a :: b :: ls =>
    match to_digit a b with
    | some d => d :: ls
    | none => 37 :: a :: b :: ls

/-- Byte-level body of `unquote` in `query_string.rs`, before the final
`String::from_utf8` validation. -/
def unquoteBytes (s : List Nat) : List Nat :=
  match splitByte 37 s with
  | [] => []
  | first :: rest => first ++ (rest.map decodeChunk).flatten

/-- States of the UTF-8 validation automaton: `s0` between characters,
`s1`/`s2`/`s3` expecting that many generic continuation bytes, and the
tight states after the lead bytes `0xE0`, `0xED`, `0xF0`, `0xF4`, whose
first continuation byte is range-restricted (RFC 3629, the checks
`String::from_utf8` performs). -/
inductive U8 : Type
  | s0 | s1 | s2 | s3 | e0 | ed | f0 | f4
deriving DecidableEq

/-- One step of the UTF-8 validation automaton. -/
def utf8Step (st : U8) (b : Nat) : Option U8 :=
  match st with
  | .s0 =>
    if b ≤ 127 then some .s0
    else if 194 ≤ b ∧ b ≤ 223 then some .s1
    else if b = 224 then some .e0
    else if 225 ≤ b ∧ b ≤ 236 then some .s2
    else if b = 237 then some .ed
    else if 238 ≤ b ∧ b ≤ 239 then some .s2
    else if b = 240 then some .f0
    else if 241 ≤ b ∧ b ≤ 243 then some .s3
    else if b = 244 then some .f4
    else none
  | .s1 => if 128 ≤ b ∧ b ≤ 191 then some .s0 else none
  | .s2 => if 128 ≤ b ∧ b ≤ 191 then some .s1 else none
  | .s3 => if 128 ≤ b ∧ b ≤ 191 then some .s2 else none
  | .e0 => if 160 ≤ b ∧ b ≤ 191 then some .s1 else none
  | .ed => if 128 ≤ b ∧ b ≤ 159 then some .s1 else none
  | .f0 => if 144 ≤ b ∧ b ≤ 191 then some .s2 else none
  | .f4 => if 128 ≤ b ∧ b ≤ 143 then some .s2 else none

/-- Is the byte list valid UTF-8?  Models the check done by
`String::from_utf8`. -/
def utf8Valid (l : List Nat) : Bool :=
  (l.foldl (fun o b => o.bind (fun st => utf8Step st b)) (some U8.s0)) == some U8.s0

/-- Model of `unquote` in `query_string.rs`.  The error case models
`FromUtf8Error` (its payload is irrelevant to the spec, so `Unit`). -/
def unquote (s : List Nat) : Except Unit (List Nat) :=
  let r := unquoteBytes s
  if utf8Valid r then .ok r else .error ()

/-- Model of `unquote_plus` in `query_string.rs`: replace `+` (43) by a
space (32), then `unquote`. -/
def unquote_plus (s : List Nat) : Except Unit (List Nat) :=
  unquote (s.map fun b => if b = 43 then 32 else b)

/-! ## Model of `get_ids` in `src/main.rs`

The extractor runs `Regex::new(r"s([0-9]+)\.contentId=([0-9]+);")`'s
`captures_iter` over the course-info buffer and, for each capture
`(n, content_id)`, locates the first occurrence of `s{n}.id=` in the whole
buffer, reading the bytes after it up to the next `;` (or end of buffer) as
the section id; a missing companion marker panics with
`"No section ID found"` (modelled as the `Except.error` of `get_ids`).
`String::from_utf8_lossy` is modelled as the identity on byte content; all
theorems below instantiate it on ASCII digit bytes, where the lossy
conversion is byte-exact.

Fidelity of `tryMatchAt` to the regex engine at one start position: the
regex `s([0-9]+)\.contentId=([0-9]+);` can only match by taking each
`[0-9]+` group as the maximal digit run, because the byte after each group
in the pattern (`.` = 46 resp. `;` = 59) is not a digit, so a shorter
nonempty run would leave a digit where the pattern requires a non-digit.

Fidelity of `scan` (which tries every start position) to the
non-overlapping `captures_iter`: no match of this pattern can start
strictly inside another match, because a match's bytes are `s`, digits,
`.`, the letters of `contentId=`, digits and `;`, so the byte `s` (115)
occurs in a match only at its first position.  Hence position-wise
scanning finds exactly the matches `captures_iter` finds, in the same
buffer-scan order. -/

/-- The literal `.id=` (bytes of `.`, `i`, `d`, `=`). -/
def idLit : List Nat := [46, 105, 100, 61]

/-- The literal `.contentId=` (bytes of `.`, `c`, `o`, `n`, `t`, `e`, `n`,
`t`, `I`, `d`, `=`). -/
def contentIdLit : List Nat := [46, 99, 111, 110, 116, 101, 110, 116, 73, 100, 61]

/-- The panic message `No section ID found` of the `expect` in `get_ids`. -/
def noSectionMsg : List Nat :=
  [78, 111, 32, 115, 101, 99, 116, 105, 111, 110, 32, 73, 68, 32, 102, 111, 117, 110, 100]

/-- Attempt to match `s([0-9]+)\.contentId=([0-9]+);` at the start of the
buffer, returning the two captures and the remainder after the match. -/
def tryMatchAt (t : List Nat) : Option (List Nat × List Nat × List Nat) :=
  match stripLit [115] t with          -- 's'
  | none => none
  | some r1 =>
    let p1 := takeDigits r1
    if p1.1.isEmpty then none
    else
      match stripLit contentIdLit p1.2 with
      | none => none
      | some r3 =>
        let p2 := takeDigits r3
        if p2.1.isEmpty then none
        else
          match stripLit [59] p2.2 with   -- ';'
          | none => none
          | some r5 => some (p1.1, p2.1, r5)

/-- All captures `(section index, content id)` of the contentId regex over
the buffer, in buffer-scan order.  Models `REGEX.captures_iter` (see the
fidelity note above: trying every start position coincides with the
non-overlapping scan for this pattern). -/
def scan : List Nat → List (List Nat × List Nat)
  | [] => []
  | b :: bs =>
    (match tryMatchAt (b :: bs) with
     | some (k, c, _) => [(k, c)]
     | none => []) ++ scan bs

/-- The companion lookup inside `get_ids`: find the first `s{n}.id=` in the
buffer, then read up to the next `;` (or end).  The error is the panic of
the `expect("No section ID found")`. -/
def getSectionId (buf n : List Nat) : Except (List Nat) (List Nat) :=
  let pat := 115 :: (n ++ idLit)       -- "s" ++ n ++ ".id="
  match findSub pat buf with
  | none => .error noSectionMsg
  | some p =>
    let haystack := buf.drop (p + pat.length)
    let offset := (memchr 59 haystack).getD haystack.length
    .ok (haystack.take offset)

/-- Model of `get_ids` in `main.rs`: each capture `(n, content_id)` becomes
the pair `(content_id, section_id)`; a missing companion marker aborts the
whole extraction (the panic). -/
def get_ids (buf : List Nat) : Except (List Nat) (List (List Nat × List Nat)) :=
  mapE (fun p => (getSectionId buf p.1).map fun sid => (p.2, sid)) (scan buf)

/-! ## Well-formed buffers for the extraction claim (C4)

A concrete family of buffers that realises the spec's "N well-formed
`sK.contentId=VALUE;` markers, each with a matching `sK.id=` companion":
one segment per pair, holding the companion marker followed by the content
marker, with numeric-text tokens throughout and pairwise distinct section
indices. -/

/-- One well-formed pair of markers: section index `k`, content id `cid`,
section id `sid` (all byte strings). -/
structure Entry : Type where
  k : List Nat
  cid : List Nat
  sid : List Nat
deriving DecidableEq

/-- The byte segment `s{k}.id={sid};s{k}.contentId={cid};`. -/
def segmentBytes (e : Entry) : List Nat :=
  (115 :: (e.k ++ idLit ++ e.sid ++ [59])) ++
  (115 :: (e.k ++ contentIdLit ++ e.cid ++ [59]))

/-- Concatenation of the segments of all entries. -/
def mkBuffer : List Entry → List Nat
  | [] => []
  | e :: es => segmentBytes e ++ mkBuffer es

/-- Well-formedness of one entry: nonempty digit section index, nonempty
digit content id, digit section id. -/
def entryWf (e : Entry) : Prop :=
  e.k ≠ [] ∧ allDigits e.k = true ∧ e.cid ≠ [] ∧ allDigits e.cid = true ∧
    allDigits e.sid = true

instance (e : Entry) : Decidable (entryWf e) := by
  unfold entryWf; infer_instance

/-- Well-formedness of a buffer description: every entry well formed and
the section indices pairwise distinct. -/
def buffersWf (l : List Entry) : Prop :=
  (∀ e ∈ l, entryWf e) ∧ (l.map Entry.k).Nodup

instance (l : List Entry) : Decidable (buffersWf l) := by
  unfold buffersWf; infer_instance

/-! ## Model of `get_pdf_urls` in `src/main.rs`

For each identifier pair the function spawns a task that posts one request;
on a transport error or non-success status the task returns early and its
error value is discarded together with the never-awaited `JoinHandle`.  On
success the task runs `Regex::captures` with
`textOrigUrl:"([^"]*\.pdf[^"]*)"` over the body and, when it matches,
sends the captured group through an `mpsc::channel(5)`; the collector
drains the channel until every sender is dropped.

The model serialises the tasks in spawn order (the collector merely
accumulates whatever arrives, and the claims treated here compare result
sets, not arrival orders).  `Url::parse` of the collected strings is an
external collaborator and is left as the identity on the byte strings.

Fidelity of `tryPdfAt` to the regex at one start position: after the
literal `textOrigUrl:"`, any match's capture group consists of non-quote
bytes followed by the closing quote, so the group is exactly the run up to
the first `"` (34) after the literal, and a match exists at this position
iff that run exists (a closing quote is present) and contains `.pdf`.
Position-wise first-success scanning equals the engine's leftmost-match
rule. -/

/-- The literal `textOrigUrl:"` (bytes of `t`, `e`, `x`, `t`, `O`, `r`,
`i`, `g`, `U`, `r`, `l`, `:`, `"`). -/
def pdfLit : List Nat := [116, 101, 120, 116, 79, 114, 105, 103, 85, 114, 108, 58, 34]

/-- The literal `.pdf`. -/
def dotPdfLit : List Nat := [46, 112, 100, 102]

/-- Does `pat` occur as a contiguous subsequence of the buffer? -/
def containsSub (pat t : List Nat) : Bool := (findSub pat t).isSome

/-- Attempt the PDF-URL regex at the start of the buffer: match the
literal `textOrigUrl:"`, take the run up to the next `"` and require it to
contain `.pdf`. -/
def tryPdfAt (t : List Nat) : Option (List Nat) :=
  match stripLit pdfLit t with
  | none => none
  | some r =>
    match memchr 34 r with
    | none => none
    | some j =>
      let seg := r.take j
      if containsSub dotPdfLit seg then some seg else none

/-- First (leftmost) capture of the PDF-URL regex over a response body.
Models `REGEX.captures(&s)` in `get_pdf_urls`. -/
def extractPdfUrl : List Nat → Option (List Nat)
  | [] => none
  | b :: bs =>
    match tryPdfAt (b :: bs) with
    | some u => some u
    | none => extractPdfUrl bs

/-- Outcome of one pair-resolution request: a transport/status error, or a
successfully received response body. -/
inductive FetchResult : Type
  | err
  | ok (body : List Nat)
deriving DecidableEq

/-- The body of one spawned task in `get_pdf_urls`: a transport error makes
the task return early (the error is dropped with its `JoinHandle`, so the
task contributes nothing); a received body contributes its first PDF-URL
capture, if any. -/
def runTask (service : List Nat × List Nat → FetchResult)
    (p : List Nat × List Nat) : Option (List Nat) :=
  match service p with
  | .err => none
  | .ok body => extractPdfUrl body

/-- Model of `get_pdf_urls` in `main.rs` over an abstract resolution
service: the URLs sent through the channel by the tasks, in spawn order. -/
def get_pdf_urls (service : List Nat × List Nat → FetchResult)
    (ids : List (List Nat × List Nat)) : List (List Nat) :=
  ids.filterMap (runTask service)

/-! ## Operational model of the resolver's concurrency (C6)

State of the spawned tasks and the `mpsc::channel(5)` during one call of
`get_pdf_urls`: the spawn loop contains no await point, so all tasks exist
from the start; `pending` tasks have not yet issued their request,
`inFlight` tasks have an outstanding request, and `queued` results sit in
the channel (capacity 5 — `finishSend` requires a free slot, which is the
only blocking the channel imposes, and it happens after the request has
already completed).  The collector's `rx.recv()` is `recv`. -/

/-- Resolver state: tasks yet to issue their request, requests currently
outstanding, and results queued in the bounded channel. -/
structure RState : Type where
  pending : Nat
  inFlight : Nat
  queued : Nat
deriving DecidableEq

/-- Interleaving steps of the resolver tasks and collector. -/
inductive RStep : RState → RState → Prop
  | issue (p f q : Nat) : RStep ⟨p + 1, f, q⟩ ⟨p, f + 1, q⟩
  | finishDrop (p f q : Nat) : RStep ⟨p, f + 1, q⟩ ⟨p, f, q⟩
  | finishSend (p f q : Nat) (h : q < 5) : RStep ⟨p, f + 1, q⟩ ⟨p, f, q + 1⟩
  | recv (p f q : Nat) : RStep ⟨p, f, q + 1⟩ ⟨p, f, q⟩

/-- Reachability from the initial state with `n` spawned tasks. -/
def RReach (n : Nat) (s : RState) : Prop :=
  Relation.ReflTransGen RStep ⟨n, 0, 0⟩ s

/-! ## Model of `download` in `src/main.rs`

The orchestrator creates the destination directory, then for each URL (in
the main loop, before spawning) derives the output file name from the
`download` query parameter via `unquote_plus`; a missing parameter or a
decoding failure makes the `?` on `ok_or_eyre("No filename found in URL")`
return from `download` immediately with that error (the `JoinSet` is
dropped, aborting already-spawned tasks, and the join loop never runs).
Otherwise one task per URL is spawned; after the loop, `join_next` is
awaited until every task has finished, task errors are pushed into a local
`errors` vector, and the function then returns `Ok(())` — the `errors`
vector is dropped.

`Url` is an external collaborator; the model keeps only its
`query_pairs()` view (the list of key/value byte strings the `url` crate
yields for the query string).  The per-task body (streaming GET plus chunk
writes) is abstracted by the `fetch` parameter: `true` means the task
succeeded, `false` that it failed with some error. -/

/-- Abstract view of a `reqwest::Url`: its `query_pairs()` key/value list. -/
structure ModelUrl : Type where
  queryPairs : List (List Nat × List Nat)
deriving DecidableEq

/-- The literal `download` (the query-parameter name). -/
def downloadLit : List Nat := [100, 111, 119, 110, 108, 111, 97, 100]

/-- The error message `No filename found in URL` of the `ok_or_eyre`. -/
def noFilenameMsg : List Nat :=
  [78, 111, 32, 102, 105, 108, 101, 110, 97, 109, 101, 32, 102, 111, 117, 110,
   100, 32, 105, 110, 32, 85, 82, 76]

/-- File-name derivation in `download`: find the `download` query pair,
then percent/plus-decode its value (`unquote_plus(..).ok()`). -/
def deriveFileName (u : ModelUrl) : Option (List Nat) :=
  match u.queryPairs.find? (fun kv => kv.1 == downloadLit) with
  | none => none
  | some kv =>
    match unquote_plus kv.2 with
    | .ok n => some n
    | .error _ => none

deriving instance DecidableEq for Except

/-- Observables of one `download` call: whether the destination directory
was created, the file names of the tasks the join loop actually joined,
the errors pushed into the local `errors` vector, and the value the
function returned. -/
structure DownloadOutcome : Type where
  dirCreated : Bool
  ran : List (List Nat)
  errors : List (List Nat)
  result : Except (List Nat) Unit
deriving DecidableEq

/-- The spawning loop of `download`: derive every file name in URL order,
aborting at the first URL without a decodable `download` parameter. -/
def spawnPhase : List ModelUrl → Except (List Nat) (List (ModelUrl × List Nat)) :=
  mapE fun u =>
    match deriveFileName u with
    | none => .error noFilenameMsg
    | some n => .ok (u, n)

/-- Model of `download` in `main.rs`.  In the abort case the join loop
never runs, so no task is joined and no error is recorded; otherwise every
task is joined, failures are collected into the local vector, and the
function returns `Ok(())` regardless. -/
def download (fetch : ModelUrl → Bool) (urls : List ModelUrl) : DownloadOutcome :=
  match spawnPhase urls with
  | .error e => { dirCreated := true, ran := [], errors := [], result := .error e }
  | .ok tasks =>
    { dirCreated := true
      ran := tasks.map (·.2)
      errors := (tasks.filter fun t => !fetch t.1).map (·.2)
      result := .ok () }

/-! ## Model of `src/cookies.rs`

`CookieJar::cookies` renders the store's request cookies for a domain as
`name=value` pairs joined with `;`; an empty rendering yields `None`,
otherwise `HeaderValue::from_maybe_shared(..).ok()` (which rejects bytes
outside the header-value range — modelled by `headerByteOk`, the `http`
crate's rule: tab, visible ASCII and obs-text are legal).

`get_session_id` immediately `unwrap`s that `Option` (a panic when the jar
holds nothing for the domain), then `to_str().unwrap()` (the `http` crate
accepts only bytes 32-126 there; other bytes would also panic), then
re-parses the string with `Cookie::split_parse` and looks for a cookie
named `NTESSTUDYSI`.  Cookie parsing (the `cookie` crate) splits each
`;`-chunk at its first `=`, trims spaces around name and value, rejects an
empty name, and unwraps a value surrounded by double quotes.

The jar's per-domain content is abstracted as the list of `(name, value)`
byte-string pairs that `get_request_values` yields for the domain. -/

/-- Legal byte of an `http::HeaderValue`: tab, visible ASCII or obs-text. -/
def headerByteOk (b : Nat) : Bool :=
  b == 9 || (decide (32 ≤ b) && decide (b ≤ 126)) || (decide (128 ≤ b) && decide (b ≤ 255))

/-- Model of `CookieJar::cookies` for one domain: join `name=value` with
`;`, `None` when empty or when the bytes are not a legal header value. -/
def cookies (pairs : List (List Nat × List Nat)) : Option (List Nat) :=
  let s := joinSemi (pairs.map fun nv => nv.1 ++ 61 :: nv.2)  -- 61 = '='
  if s = [] then none
  else if s.all headerByteOk then some s else none

/-- Bytes `HeaderValue::to_str` accepts: visible ASCII plus space. -/
def toStrOk (s : List Nat) : Bool := s.all fun b => decide (32 ≤ b) && decide (b ≤ 126)

/-- Drop leading and trailing spaces (byte 32), as cookie parsing trims
around names and values. -/
def trimSpace (l : List Nat) : List Nat :=
  (((l.dropWhile fun b => b == 32).reverse.dropWhile fun b => b == 32)).reverse

/-- Split a chunk at its first `=` (61), returning name and value parts. -/
def splitFirstEq : List Nat → Option (List Nat × List Nat)
  | [] => none
  | b :: bs =>
    if b = 61 then some ([], bs)
    else (splitFirstEq bs).map fun p => (b :: p.1, p.2)

/-- Unwrap a value surrounded by double quotes (34), as the `cookie` crate
does after trimming. -/
def unquoteValue (v : List Nat) : List Nat :=
  if 2 ≤ v.length ∧ v.head? = some 34 ∧ v.getLast? = some 34 then
    (v.drop 1).dropLast
  else v

/-- Parse one `;`-chunk as a cookie (`Cookie::parse`): split at the first
`=`, trim, reject an empty name, unwrap a quoted value.  `none` models a
parse error, which `split_parse`'s caller filters out. -/
def parseCookie (chunk : List Nat) : Option (List Nat × List Nat) :=
  match splitFirstEq chunk with
  | none => none
  | some p =>
    let n := trimSpace p.1
    let v := unquoteValue (trimSpace p.2)
    if n = [] then none else some (n, v)

/-- Model of `Cookie::split_parse` over a header string: split on `;`,
parse each chunk, keep the successes. -/
def parseCookieList (s : List Nat) : List (List Nat × List Nat) :=
  (splitByte 59 s).filterMap parseCookie

/-- The cookie name `NTESSTUDYSI`. -/
def ntesLit : List Nat := [78, 84, 69, 83, 83, 84, 85, 68, 89, 83, 73]

/-- The `find_map` of `get_session_id`: the value of the first parsed
cookie named `NTESSTUDYSI`. -/
def findSession (cs : List (List Nat × List Nat)) : Option (List Nat) :=
  (cs.find? fun nv => nv.1 == ntesLit).map (·.2)

/-- Result of a function that may panic instead of returning. -/
inductive PanicOr (α : Type) : Type
  | panicked
  | ret (a : α)
deriving DecidableEq

/-- Model of `CookieJar::get_session_id`: `cookies(domain).unwrap()`
panics on `None`; `to_str().unwrap()` panics on non-visible-ASCII bytes;
otherwise the re-parsed cookie list is searched for `NTESSTUDYSI`. -/
def get_session_id (pairs : List (List Nat × List Nat)) : PanicOr (Option (List Nat)) :=
  match cookies pairs with
  | none => .panicked
  | some s => if toStrOk s then .ret (findSession (parseCookieList s)) else .panicked

/-- Well-formedness of a name byte for the cookie round trip: visible
ASCII, not `;`, `=`, `"`, nor space. -/
def nameByteOk (b : Nat) : Bool :=
  decide (33 ≤ b) && decide (b ≤ 126) && !(b == 59) && !(b == 61) && !(b == 34)

/-- Well-formedness of a value byte: visible ASCII, not `;` nor `"`
(values may contain `=`). -/
def valueByteOk (b : Nat) : Bool :=
  decide (33 ≤ b) && decide (b ≤ 126) && !(b == 59) && !(b == 34)

/-- Well-formed jar content: nonempty plain names, plain values. -/
def cookiePairsWf (pairs : List (List Nat × List Nat)) : Prop :=
  ∀ nv ∈ pairs, nv.1 ≠ [] ∧ nv.1.all nameByteOk = true ∧ nv.2.all valueByteOk = true

instance (pairs : List (List Nat × List Nat)) : Decidable (cookiePairsWf pairs) := by
  unfold cookiePairsWf; infer_instance

/-! ## General lemmas about the helper operations -/

/-- If a function fails only with the fixed error `E`, one failing member
makes the whole `mapE` fail with `E`. -/
theorem mapE_error_of_mem {α β ε : Type} (g : α → Except ε β) (E : ε)
    (hall : ∀ a, g a = .error E ∨ ∃ b, g a = .ok b)
    (xs : List α) (x : α) (hx : x ∈ xs) (hgx : g x = .error E) :
    mapE g xs = .error E := by
  induction xs with
  | nil => cases hx
  | cons y ys ih =>
    rcases hall y with hy | ⟨b, hy⟩
    · simp [mapE, hy]
    · have hxy : x ∈ ys := by
        rcases List.mem_cons.mp hx with h | h
        · subst h; rw [hgx] at hy; simp at hy
        · exact h
      simp [mapE, hy, ih hxy]

/-- `mapE` over a list of member-wise successes collects the successes. -/
theorem mapE_ok {α γ ε : Type} (g : α → Except ε γ) (h : α → γ) (xs : List α)
    (hx : ∀ x ∈ xs, g x = .ok (h x)) : mapE g xs = .ok (xs.map h) := by
  induction xs with
  | nil => rfl
  | cons y ys ih =>
    have hy := hx y (List.mem_cons_self y ys)
    have hrest : ∀ x ∈ ys, g x = .ok (h x) := fun x hxx => hx x (List.mem_cons_of_mem y hxx)
    simp [mapE, hy, ih hrest]

/-- `mapE` composed with a map, when every mapped element succeeds. -/
theorem mapE_map_ok {α β γ ε : Type} (g : β → Except ε γ) (f : α → β) (h : α → γ)
    (xs : List α) (hx : ∀ x ∈ xs, g (f x) = .ok (h x)) :
    mapE g (xs.map f) = .ok (xs.map h) := by
  induction xs with
  | nil => rfl
  | cons y ys ih =>
    have hy := hx y (List.mem_cons_self y ys)
    have hrest : ∀ x ∈ ys, g (f x) = .ok (h x) := fun x hxx => hx x (List.mem_cons_of_mem y hxx)
    simp [mapE, hy, ih hrest]

/-! ## C8: percent/plus decoding examples -/

/-- C8: `unquote("ABC%3D123%21%20DEF%3D%23%23")` is `"ABC=123! DEF=##"`,
`unquote_plus("ABC%3D123%21+DEF%3D%23%23")` is `"ABC=123! DEF=##"`, and a
malformed `%` sequence passes through literally:
`unquote("100%")` is `"100%"`. -/
theorem unquote_examples :
    unquote [65, 66, 67, 37, 51, 68, 49, 50, 51, 37, 50, 49, 37, 50, 48, 68, 69,
             70, 37, 51, 68, 37, 50, 51, 37, 50, 51] =
      .ok [65, 66, 67, 61, 49, 50, 51, 33, 32, 68, 69, 70, 61, 35, 35] ∧
    unquote_plus [65, 66, 67, 37, 51, 68, 49, 50, 51, 37, 50, 49, 43, 68, 69,
                  70, 37, 51, 68, 37, 50, 51, 37, 50, 51] =
      .ok [65, 66, 67, 61, 49, 50, 51, 33, 32, 68, 69, 70, 61, 35, 35] ∧
    unquote [49, 48, 48, 37] = .ok [49, 48, 48, 37] :=
  ⟨rfl, rfl, rfl⟩

/-! ## C2: `download` waits for every task but drops the collected errors -/

/-- C2: at a concrete input where the second of two download tasks fails,
`download` joins both tasks and pushes the failure into its local error
vector, yet returns `Ok(())`: the aggregate outcome signals success and
carries no error, contradicting the claim that at least one task failure
yields an overall partial-failure outcome. -/
theorem download_drops_collected_errors :
    (download (fun u => u == ⟨[(downloadLit, [97])]⟩)
        [⟨[(downloadLit, [97])]⟩, ⟨[(downloadLit, [98])]⟩]).ran = [[97], [98]] ∧
    (download (fun u => u == ⟨[(downloadLit, [97])]⟩)
        [⟨[(downloadLit, [97])]⟩, ⟨[(downloadLit, [98])]⟩]).errors = [[98]] ∧
    (download (fun u => u == ⟨[(downloadLit, [97])]⟩)
        [⟨[(downloadLit, [97])]⟩, ⟨[(downloadLit, [98])]⟩]).result = .ok () :=
  ⟨rfl, rfl, rfl⟩

/-! ## C3: a malformed URL aborts the whole `download` call -/

/-- C3 counterexample: with three URLs whose first lacks a `download`
query parameter, `download` returns the error `No filename found in URL`
for the whole call and joins no task at all — the other two files are not
downloaded and no per-task failure list is produced, contradicting the
claim that only the malformed URL's task fails. -/
theorem download_malformed_aborts_batch :
    (download (fun _ => true)
        [⟨[]⟩, ⟨[(downloadLit, [97])]⟩, ⟨[(downloadLit, [98])]⟩]).result =
      .error noFilenameMsg ∧
    (download (fun _ => true)
        [⟨[]⟩, ⟨[(downloadLit, [97])]⟩, ⟨[(downloadLit, [98])]⟩]).ran = [] :=
  ⟨rfl, rfl⟩

/-- C3 amended: whenever some URL of the batch has no decodable `download`
query parameter, `download` creates the destination directory but aborts
the whole call with the error `No filename found in URL`, joining no
task. -/
theorem download_malformed_fails_whole (fetch : ModelUrl → Bool) (urls : List ModelUrl)
    (u : ModelUrl) (hmem : u ∈ urls) (hbad : deriveFileName u = none) :
    (download fetch urls).result = .error noFilenameMsg ∧
    (download fetch urls).dirCreated = true ∧ (download fetch urls).ran = [] := by
  have hsp : spawnPhase urls = .error noFilenameMsg := by
    refine mapE_error_of_mem _ noFilenameMsg ?_ urls u hmem ?_
    · intro a
      cases h : deriveFileName a <;> simp [h]
    · simp [hbad]
  simp [download, hsp]

/-- C3 amended, witnessed at a one-URL batch without the parameter. -/
theorem download_malformed_fails_whole_holds :
    (download (fun _ => true) [⟨[]⟩]).result = .error noFilenameMsg ∧
    (download (fun _ => true) [⟨[]⟩]).dirCreated = true ∧
    (download (fun _ => true) [⟨[]⟩]).ran = [] :=
  download_malformed_fails_whole (fun _ => true) [⟨[]⟩] ⟨[]⟩ (by simp) rfl

/-! ## C9: an empty decoded file name is not rejected -/

/-- C9 counterexample: a URL whose `download` parameter decodes to the
empty string is not failed fast — `download` derives the empty file name,
joins the task for it and returns `Ok(())`, contradicting the claimed
invariant that an empty decoded file name makes the pipeline fail for that
entry before downloading. -/
theorem download_empty_name_proceeds :
    deriveFileName ⟨[(downloadLit, [])]⟩ = some [] ∧
    (download (fun _ => true) [⟨[(downloadLit, [])]⟩]).ran = [[]] ∧
    (download (fun _ => true) [⟨[(downloadLit, [])]⟩]).result = .ok () :=
  ⟨rfl, rfl, rfl⟩

/-- C9 amended: every URL whose `download` parameter decodes (to any
value, the empty name included) has its task spawned and joined — the
orchestrator proceeds with the decoded name and performs no emptiness
check. -/
theorem download_runs_all_decodable (fetch : ModelUrl → Bool) (urls : List ModelUrl)
    (h : ∀ u ∈ urls, (deriveFileName u).isSome = true) :
    (download fetch urls).ran = urls.map fun u => (deriveFileName u).getD [] := by
  have hsp : spawnPhase urls = .ok (urls.map fun u => (u, (deriveFileName u).getD [])) := by
    refine mapE_ok _ _ urls ?_
    intro u hu
    rcases Option.isSome_iff_exists.mp (h u hu) with ⟨n, hn⟩
    simp [hn]
  simp [download, hsp]

/-- C9 amended, witnessed at a batch holding one URL whose parameter
decodes to the empty name. -/
theorem download_runs_all_decodable_holds :
    (download (fun _ => true) [(⟨[(downloadLit, [])]⟩ : ModelUrl)]).ran =
      [(⟨[(downloadLit, [])]⟩ : ModelUrl)].map (fun u => (deriveFileName u).getD []) :=
  download_runs_all_decodable (fun _ => true) [⟨[(downloadLit, [])]⟩] (by decide)

/-! ## C1: resolver task errors are dropped with their join handles -/

/-- C1 counterexample: a service where the second of two pairs suffers a
transport error.  `get_pdf_urls` returns only the first pair's URL and its
result is byte-for-byte identical to the result under a service where the
second pair merely has no `.pdf` match — the failure is not reported in
the result at all, let alone distinguishably from a no-match. -/
theorem get_pdf_urls_error_indistinguishable :
    get_pdf_urls
        (fun p => if p = ([49], [50]) then
            .ok (pdfLit ++ [104, 46, 112, 100, 102] ++ [34]) else .err)
        [([49], [50]), ([51], [52])] = [[104, 46, 112, 100, 102]] ∧
    get_pdf_urls
        (fun p => if p = ([49], [50]) then
            .ok (pdfLit ++ [104, 46, 112, 100, 102] ++ [34]) else .err)
        [([49], [50]), ([51], [52])] =
      get_pdf_urls
        (fun p => if p = ([49], [50]) then
            .ok (pdfLit ++ [104, 46, 112, 100, 102] ++ [34]) else .ok [])
        [([49], [50]), ([51], [52])] :=
  ⟨rfl, rfl⟩

/-- C1 amended: `get_pdf_urls` completes and returns exactly the URLs
resolved from the successful requests; a pair whose request fails
contributes nothing and leaves no trace — the result equals the result on
the erroring pairs removed. -/
theorem get_pdf_urls_skips_failed_requests
    (service : List Nat × List Nat → FetchResult) (ids : List (List Nat × List Nat)) :
    get_pdf_urls service ids =
      get_pdf_urls service
        (ids.filter fun p => match service p with | .err => false | .ok _ => true) := by
  induction ids with
  | nil => rfl
  | cons p ps ih =>
    cases h : service p with
    | err =>
      have h1 : runTask service p = none := by simp [runTask, h]
      simp only [get_pdf_urls] at ih ⊢
      rw [List.filter_cons, if_neg (by simp [h]), List.filterMap_cons, h1]
      exact ih
    | ok body =>
      simp only [get_pdf_urls] at ih ⊢
      rw [List.filter_cons, if_pos (by simp [h]), List.filterMap_cons, List.filterMap_cons]
      cases runTask service p <;> simp [ih]

/-! ## C7: a pair without a `.pdf` match yields nothing, not an error -/

/-- C7: for a service where the first pair's response carries a `.pdf`
URL and the second pair's response has no match of the pattern,
`get_pdf_urls` returns the one-element collection holding only the first
pair's URL: the non-matching pair yields nothing and is not an error. -/
theorem get_pdf_urls_pattern_miss_yields_nothing
    (service : List Nat × List Nat → FetchResult) (pA pB : List Nat × List Nat)
    (bodyA bodyB u : List Nat)
    (hA : service pA = .ok bodyA) (hu : extractPdfUrl bodyA = some u)
    (hB : service pB = .ok bodyB) (hn : extractPdfUrl bodyB = none) :
    get_pdf_urls service [pA, pB] = [u] := by
  simp [get_pdf_urls, List.filterMap_cons, runTask, hA, hB, hu, hn]

/-- C7, witnessed at a concrete service and bodies. -/
theorem get_pdf_urls_pattern_miss_yields_nothing_holds :
    get_pdf_urls
      (fun p => if p = ([49], [50]) then
          .ok (pdfLit ++ [104, 46, 112, 100, 102] ++ [34]) else .ok [99, 99])
      [([49], [50]), ([51], [52])] = [[104, 46, 112, 100, 102]] :=
  get_pdf_urls_pattern_miss_yields_nothing _ ([49], [50]) ([51], [52])
    (pdfLit ++ [104, 46, 112, 100, 102] ++ [34]) [99, 99] [104, 46, 112, 100, 102]
    rfl rfl rfl rfl

/-! ## C6: the channel bounds queued results, not outstanding requests -/

/-- All pending tasks can issue their requests before any completes. -/
theorem rreach_issue_all (j p f q : Nat) :
    Relation.ReflTransGen RStep ⟨p + j, f, q⟩ ⟨p, f + j, q⟩ := by
  induction j generalizing f with
  | zero => exact .refl
  | succ n ih =>
    have h1 : RStep ⟨p + (n + 1), f, q⟩ ⟨p + n, f + 1, q⟩ := RStep.issue (p + n) f q
    have h2 := ih (f := f + 1)
    have h3 : f + 1 + n = f + (n + 1) := by omega
    exact Relation.ReflTransGen.head h1 (h3 ▸ h2)

/-- C6 counterexample: from 12 pending pair requests the state with all 12
requests concurrently outstanding is reachable — the spawn loop launches
every task and each task's first await is its own `request.send`, so the
channel capacity of 5 never gates the requests.  The claimed bound of 5
concurrently outstanding requests is false. -/
theorem resolver_inflight_exceeds_limit :
    ¬ ∀ s : RState, RReach 12 s → s.inFlight ≤ 5 := by
  intro h
  have h12 : RReach 12 ⟨0, 12, 0⟩ := rreach_issue_all 12 0 0 0
  exact absurd (h _ h12) (by decide)

/-- C6 amended: the `mpsc::channel(5)` bounds only the queued, not-yet
consumed results — in every reachable resolver state at most 5 results are
queued — while the number of concurrently outstanding requests is not
bounded by it: with 12 pending pairs the state with 12 outstanding
requests is reachable. -/
theorem resolver_channel_queue_bound (n : Nat) :
    (∀ s : RState, RReach n s → s.queued ≤ 5) ∧ RReach 12 ⟨0, 12, 0⟩ := by
  constructor
  · intro s hs
    unfold RReach at hs
    induction hs with
    | refl => simp
    | tail hab hbc ih =>
      cases hbc with
      | issue p f q => exact ih
      | finishDrop p f q => exact ih
      | finishSend p f q h => exact h
      | recv p f q => exact Nat.le_of_succ_le ih
  · exact rreach_issue_all 12 0 0 0

/-- C6 amended, witnessed at the fully fanned-out state. -/
theorem resolver_channel_queue_bound_holds : (⟨0, 12, 0⟩ : RState).queued ≤ 5 :=
  (resolver_channel_queue_bound 12).1 ⟨0, 12, 0⟩ (resolver_channel_queue_bound 12).2

/-! ## C10: `get_session_id` panics on an empty jar -/

/-- Unpack the byte-level facts of a well-formed cookie name byte. -/
theorem nameByte_facts (b : Nat) (h : nameByteOk b = true) :
    33 ≤ b ∧ b ≤ 126 ∧ b ≠ 59 ∧ b ≠ 61 ∧ b ≠ 34 ∧ b ≠ 32 := by
  simp [nameByteOk] at h
  omega

/-- Unpack the byte-level facts of a well-formed cookie value byte. -/
theorem valueByte_facts (b : Nat) (h : valueByteOk b = true) :
    33 ≤ b ∧ b ≤ 126 ∧ b ≠ 59 ∧ b ≠ 34 ∧ b ≠ 32 := by
  simp [valueByteOk] at h
  omega

/-- `splitByte` recovers a separator-free buffer whole. -/
theorem splitByte_no_sep (sep : Nat) (l : List Nat) (h : ∀ b ∈ l, b ≠ sep) :
    splitByte sep l = [l] := by
  induction l with
  | nil => rfl
  | cons b bs ih =>
    have hb : b ≠ sep := h b (List.mem_cons_self _ _)
    have ih' := ih fun x hx => h x (List.mem_cons_of_mem _ hx)
    simp [splitByte, hb, ih']

/-- `splitByte` peels off a leading separator-free chunk. -/
theorem splitByte_append_sep (sep : Nat) (x r : List Nat) (h : ∀ b ∈ x, b ≠ sep) :
    splitByte sep (x ++ sep :: r) = x :: splitByte sep r := by
  induction x with
  | nil => simp [splitByte]
  | cons b bs ih =>
    have hb : b ≠ sep := h b (List.mem_cons_self _ _)
    have ih' := ih fun y hy => h y (List.mem_cons_of_mem _ hy)
    simp [splitByte, hb, ih']

/-- Splitting at the first `=` recovers an `=`-free name and its value. -/
theorem splitFirstEq_append (n v : List Nat) (h : ∀ b ∈ n, b ≠ 61) :
    splitFirstEq (n ++ 61 :: v) = some (n, v) := by
  induction n with
  | nil => simp [splitFirstEq]
  | cons a as ih =>
    have ha : a ≠ 61 := h a (List.mem_cons_self _ _)
    have ih' := ih fun b hb => h b (List.mem_cons_of_mem _ hb)
    simp [splitFirstEq, ha, ih']

/-- Trimming does nothing to a space-free buffer. -/
theorem trimSpace_eq_self (l : List Nat) (h : ∀ b ∈ l, b ≠ 32) : trimSpace l = l := by
  have h1 : ∀ m : List Nat, (∀ b ∈ m, b ≠ 32) → m.dropWhile (fun b => b == 32) = m := by
    intro m hm
    cases m with
    | nil => rfl
    | cons a as =>
      have ha : (a == 32) = false := beq_eq_false_iff_ne.mpr (hm a (List.mem_cons_self _ _))
      simp [List.dropWhile_cons, ha]
  unfold trimSpace
  rw [h1 l h, h1 l.reverse fun b hb => h b (List.mem_reverse.mp hb)]
  exact List.reverse_reverse l

/-- Quote unwrapping does nothing to a quote-free value. -/
theorem unquoteValue_eq_self (v : List Nat) (h : ∀ b ∈ v, b ≠ 34) :
    unquoteValue v = v := by
  unfold unquoteValue
  rw [if_neg]
  rintro ⟨h2, h34, hlast⟩
  cases v with
  | nil => simp at h34
  | cons a as =>
    simp at h34
    exact h a (List.mem_cons_self _ _) h34

/-- Parsing one rendered `name=value` chunk recovers the pair. -/
theorem parseCookie_chunk (nv : List Nat × List Nat) (hn_ne : nv.1 ≠ [])
    (hn : nv.1.all nameByteOk = true) (hv : nv.2.all valueByteOk = true) :
    parseCookie (nv.1 ++ 61 :: nv.2) = some nv := by
  have hn' := fun b hb => nameByte_facts b (List.all_eq_true.mp hn b hb)
  have hv' := fun b hb => valueByte_facts b (List.all_eq_true.mp hv b hb)
  unfold parseCookie
  rw [splitFirstEq_append nv.1 nv.2 fun b hb => (hn' b hb).2.2.2.1]
  simp only
  rw [trimSpace_eq_self nv.1 fun b hb => (hn' b hb).2.2.2.2.2,
      trimSpace_eq_self nv.2 fun b hb => (hv' b hb).2.2.2.2,
      unquoteValue_eq_self nv.2 fun b hb => (hv' b hb).2.2.2.1]
  simp [hn_ne]

/-- Re-parsing the rendered header string of a well-formed jar recovers
exactly the jar's pairs. -/
theorem parseCookieList_roundtrip (pairs : List (List Nat × List Nat))
    (hwf : cookiePairsWf pairs) :
    parseCookieList (joinSemi (pairs.map fun nv => nv.1 ++ 61 :: nv.2)) = pairs := by
  induction pairs with
  | nil => rfl
  | cons nv rest ih =>
    obtain ⟨hn_ne, hn_ok, hv_ok⟩ := hwf nv (List.mem_cons_self _ _)
    have hrest : cookiePairsWf rest := fun x hx => hwf x (List.mem_cons_of_mem _ hx)
    have hn' := fun b hb => nameByte_facts b (List.all_eq_true.mp hn_ok b hb)
    have hv' := fun b hb => valueByte_facts b (List.all_eq_true.mp hv_ok b hb)
    have hfree : ∀ b ∈ nv.1 ++ 61 :: nv.2, b ≠ 59 := by
      intro b hb
      rcases List.mem_append.mp hb with h | h
      · exact (hn' b h).2.2.1
      · rcases List.mem_cons.mp h with h | h
        · omega
        · exact (hv' b h).2.2.1
    have hchunk := parseCookie_chunk nv hn_ne hn_ok hv_ok
    cases rest with
    | nil =>
      show parseCookieList (joinSemi [nv.1 ++ 61 :: nv.2]) = [nv]
      unfold parseCookieList joinSemi
      rw [splitByte_no_sep 59 _ hfree]
      simp [hchunk]
    | cons nv2 rest2 =>
      have ih' := ih hrest
      have hjoin : joinSemi ((nv :: nv2 :: rest2).map fun nv => nv.1 ++ 61 :: nv.2) =
          (nv.1 ++ 61 :: nv.2) ++
            59 :: joinSemi ((nv2 :: rest2).map fun nv => nv.1 ++ 61 :: nv.2) := rfl
      unfold parseCookieList at ih' ⊢
      rw [hjoin, splitByte_append_sep 59 _ _ hfree]
      simp only [List.filterMap_cons, hchunk]
      rw [ih']

/-- Every byte of the rendered header string of a well-formed jar lies in
the visible-ASCII range 32-126. -/
theorem joined_bytes_bound (pairs : List (List Nat × List Nat))
    (hwf : cookiePairsWf pairs) :
    ∀ b ∈ joinSemi (pairs.map fun nv => nv.1 ++ 61 :: nv.2), 32 ≤ b ∧ b ≤ 126 := by
  induction pairs with
  | nil => intro b hb; simp [joinSemi] at hb
  | cons nv rest ih =>
    obtain ⟨hn_ne, hn_ok, hv_ok⟩ := hwf nv (List.mem_cons_self _ _)
    have hrest : cookiePairsWf rest := fun x hx => hwf x (List.mem_cons_of_mem _ hx)
    have hn' := fun b hb => nameByte_facts b (List.all_eq_true.mp hn_ok b hb)
    have hv' := fun b hb => valueByte_facts b (List.all_eq_true.mp hv_ok b hb)
    have hchunk : ∀ b ∈ nv.1 ++ 61 :: nv.2, 32 ≤ b ∧ b ≤ 126 := by
      intro b hb
      rcases List.mem_append.mp hb with h | h
      · have := hn' b h; omega
      · rcases List.mem_cons.mp h with h | h
        · omega
        · have := hv' b h; omega
    intro b hb
    cases rest with
    | nil =>
      exact hchunk b (by simpa [joinSemi] using hb)
    | cons nv2 rest2 =>
      have hjoin : joinSemi ((nv :: nv2 :: rest2).map fun nv => nv.1 ++ 61 :: nv.2) =
          (nv.1 ++ 61 :: nv.2) ++
            59 :: joinSemi ((nv2 :: rest2).map fun nv => nv.1 ++ 61 :: nv.2) := rfl
      rw [hjoin] at hb
      rcases List.mem_append.mp hb with h | h
      · exact hchunk b h
      · rcases List.mem_cons.mp h with h | h
        · omega
        · exact ih hrest b h

/-- C10: when the cookie jar holds no cookies at all for the domain,
`get_session_id` panics (it unwraps the `None` returned by `cookies`)
instead of returning `None`; and it returns `None` only when the jar holds
at least one cookie for the domain but none named `NTESSTUDYSI`. -/
theorem get_session_id_spec :
    get_session_id [] = .panicked ∧
    ∀ pairs, cookiePairsWf pairs → get_session_id pairs = .ret none →
      pairs ≠ [] ∧ ∀ v, (ntesLit, v) ∉ pairs := by
  refine ⟨rfl, ?_⟩
  intro pairs hwf hret
  have hne : pairs ≠ [] := by
    rintro rfl
    simp [get_session_id, cookies, joinSemi] at hret
  refine ⟨hne, ?_⟩
  intro v hv
  have hbound := joined_bytes_bound pairs hwf
  have hsne : joinSemi (pairs.map fun nv => nv.1 ++ 61 :: nv.2) ≠ [] := by
    cases pairs with
    | nil => exact absurd rfl hne
    | cons nv rest => cases rest <;> simp [joinSemi]
  have hhdr : (joinSemi (pairs.map fun nv => nv.1 ++ 61 :: nv.2)).all headerByteOk = true := by
    refine List.all_eq_true.mpr fun b hb => ?_
    have := hbound b hb
    simp [headerByteOk]
    omega
  have htos : toStrOk (joinSemi (pairs.map fun nv => nv.1 ++ 61 :: nv.2)) = true := by
    refine List.all_eq_true.mpr fun b hb => ?_
    have := hbound b hb
    simp
    omega
  have hcook : cookies pairs = some (joinSemi (pairs.map fun nv => nv.1 ++ 61 :: nv.2)) := by
    unfold cookies
    simp only
    rw [if_neg hsne, if_pos hhdr]
  have hsid : get_session_id pairs =
      .ret (findSession (parseCookieList (joinSemi (pairs.map fun nv => nv.1 ++ 61 :: nv.2)))) := by
    unfold get_session_id
    rw [hcook]
    simp [htos]
  rw [hsid, parseCookieList_roundtrip pairs hwf] at hret
  simp [findSession] at hret
  exact absurd rfl (hret ntesLit v hv)

/-- C10, witnessed at a one-cookie jar without `NTESSTUDYSI`. -/
theorem get_session_id_spec_holds :
    ([([97], [98])] : List (List Nat × List Nat)) ≠ [] ∧
    ∀ v, (ntesLit, v) ∉ ([([97], [98])] : List (List Nat × List Nat)) :=
  get_session_id_spec.2 [([97], [98])] (by decide) rfl

/-! ## C4/C5: byte-level lemmas for the extraction proofs -/

/-- Bounds of an ASCII digit byte. -/
theorem digitB_facts (b : Nat) (h : digitB b = true) : 48 ≤ b ∧ b ≤ 57 := by
  simp [digitB] at h
  exact h

/-- Peel one digit off an all-digits list. -/
theorem allDigits_cons (d : Nat) (ks : List Nat) (h : allDigits (d :: ks) = true) :
    digitB d = true ∧ allDigits ks = true := by
  simpa [allDigits] using h

/-- Digit bytes are never the byte `s` (115). -/
theorem digits_no115 (d : List Nat) (hd : allDigits d = true) : ∀ b ∈ d, b ≠ 115 :=
  fun b hb => by
    have := digitB_facts b (List.all_eq_true.mp hd b hb)
    omega

/-- The literal `.id=` holds no byte `s`. -/
theorem idLit_no115 : ∀ b ∈ idLit, b ≠ 115 := by decide

/-- The literal `.contentId=` holds no byte `s`. -/
theorem contentIdLit_no115 : ∀ b ∈ contentIdLit, b ≠ 115 := by decide

/-- Stripping a literal off itself leaves the remainder. -/
theorem stripLit_append (p r : List Nat) : stripLit p (p ++ r) = some r := by
  induction p with
  | nil => rfl
  | cons a as ih => simp [stripLit, ih]

/-- A maximal digit run stops exactly at the first non-digit byte. -/
theorem takeDigits_append (d : List Nat) (b : Nat) (r : List Nat)
    (hd : allDigits d = true) (hb : digitB b = false) :
    takeDigits (d ++ b :: r) = (d, b :: r) := by
  induction d with
  | nil => simp [takeDigits, hb]
  | cons x xs ih =>
    obtain ⟨hx, hxs⟩ := allDigits_cons x xs hd
    simp [takeDigits, hx, ih hxs]

/-- Key disambiguation lemma: matching `digits ++ '.' ++ u` against
`digits ++ '.' ++ v` forces the two digit runs to agree, because a digit
byte can never equal the dot (46). -/
theorem stripLit_digits_inj (k : List Nat) :
    ∀ k' u v r : List Nat, allDigits k = true → allDigits k' = true →
      stripLit (k ++ 46 :: u) (k' ++ 46 :: v) = some r →
      k = k' ∧ stripLit u v = some r := by
  induction k with
  | nil =>
    intro k' u v r _ hk' h
    cases k' with
    | nil =>
      simp only [List.nil_append, stripLit, if_pos rfl] at h
      exact ⟨rfl, h⟩
    | cons d ks' =>
      obtain ⟨hd, _⟩ := allDigits_cons d ks' hk'
      have hdig := digitB_facts d hd
      have hne : ¬ (46 : Nat) = d := by omega
      simp [stripLit, hne] at h
  | cons d ks ih =>
    intro k' u v r hk hk' h
    obtain ⟨hd, hks⟩ := allDigits_cons d ks hk
    have hdig := digitB_facts d hd
    cases k' with
    | nil =>
      have hne : ¬ d = (46 : Nat) := by omega
      simp [stripLit, hne] at h
    | cons d' ks' =>
      obtain ⟨hd', hks'⟩ := allDigits_cons d' ks' hk'
      by_cases hdd : d = d'
      · subst hdd
        simp only [List.cons_append, stripLit, if_pos rfl] at h
        obtain ⟨hkeq, hrest⟩ := ih ks' u v r hks hks' h
        exact ⟨by rw [hkeq], hrest⟩
      · simp [stripLit, hdd] at h

/-- The contentId regex cannot match at a byte other than `s`. -/
theorem tryMatchAt_not_s (b : Nat) (t : List Nat) (hb : b ≠ 115) :
    tryMatchAt (b :: t) = none := by
  have h1 : ¬ (115 : Nat) = b := fun h => hb h.symm
  simp [tryMatchAt, stripLit, h1]

/-- The contentId regex cannot match at a companion (`s{k}.id=`) marker:
after the digits the pattern requires `.contentId=` but the buffer shows
`.id=`. -/
theorem tryMatchAt_idmark (k w : List Nat) (hk : allDigits k = true) :
    tryMatchAt (115 :: (k ++ (idLit ++ w))) = none := by
  have h2 : k ++ (idLit ++ w) = k ++ 46 :: 105 :: 100 :: 61 :: w := by simp [idLit]
  have h3 : takeDigits (k ++ 46 :: 105 :: 100 :: 61 :: w) =
      (k, 46 :: 105 :: 100 :: 61 :: w) :=
    takeDigits_append k 46 _ hk (by decide)
  simp [tryMatchAt, stripLit, h2, h3, contentIdLit, ite_self]

/-- The contentId regex matches at a content marker, capturing the section
index and the content id. -/
theorem tryMatchAt_contentmark (k c rest : List Nat) (hk : allDigits k = true)
    (hk_ne : k ≠ []) (hc : allDigits c = true) (hc_ne : c ≠ []) :
    tryMatchAt (115 :: (k ++ (contentIdLit ++ (c ++ 59 :: rest)))) = some (k, c, rest) := by
  have h2 : k ++ (contentIdLit ++ (c ++ 59 :: rest)) =
      k ++ 46 :: 99 :: 111 :: 110 :: 116 :: 101 :: 110 :: 116 :: 73 :: 100 :: 61 ::
        (c ++ 59 :: rest) := by simp [contentIdLit]
  have h3 : takeDigits (k ++ 46 :: 99 :: 111 :: 110 :: 116 :: 101 :: 110 :: 116 :: 73 ::
      100 :: 61 :: (c ++ 59 :: rest)) =
      (k, 46 :: 99 :: 111 :: 110 :: 116 :: 101 :: 110 :: 116 :: 73 :: 100 :: 61 ::
        (c ++ 59 :: rest)) :=
    takeDigits_append k 46 _ hk (by decide)
  have h5 : takeDigits (c ++ 59 :: rest) = (c, 59 :: rest) :=
    takeDigits_append c 59 rest hc (by decide)
  simp [tryMatchAt, stripLit, h2, h3, h5, contentIdLit, hk_ne, hc_ne]

/-- A failed match at the head position makes `scan` move on. -/
theorem scan_cons_none (b : Nat) (bs : List Nat) (h : tryMatchAt (b :: bs) = none) :
    scan (b :: bs) = scan bs := by
  simp [scan, h]

/-- `scan` skips any block free of the byte `s`. -/
theorem scan_not_s_block (x y : List Nat) (hx : ∀ b ∈ x, b ≠ 115) :
    scan (x ++ y) = scan y := by
  induction x with
  | nil => rfl
  | cons b bs ih =>
    have hb := hx b (List.mem_cons_self _ _)
    have ih' := ih fun z hz => hx z (List.mem_cons_of_mem _ hz)
    rw [List.cons_append, scan_cons_none _ _ (tryMatchAt_not_s b _ hb), ih']

/-- `scan` over one well-formed segment yields exactly its capture and
continues with the remainder. -/
theorem scan_segment (e : Entry) (rest : List Nat) (he : entryWf e) :
    scan (segmentBytes e ++ rest) = (e.k, e.cid) :: scan rest := by
  obtain ⟨hk_ne, hk, hc_ne, hc, hs⟩ := he
  simp only [segmentBytes, List.cons_append, List.append_assoc, List.singleton_append,
    List.nil_append]
  rw [scan_cons_none _ _ (tryMatchAt_idmark e.k _ hk)]
  rw [scan_not_s_block e.k _ (digits_no115 e.k hk)]
  rw [scan_not_s_block idLit _ idLit_no115]
  rw [scan_not_s_block e.sid _ (digits_no115 e.sid hs)]
  rw [scan_cons_none _ _ (tryMatchAt_not_s 59 _ (by omega))]
  rw [show scan (115 :: (e.k ++ (contentIdLit ++ (e.cid ++ 59 :: rest)))) =
      (e.k, e.cid) :: scan (e.k ++ (contentIdLit ++ (e.cid ++ 59 :: rest))) from by
    simp [scan, tryMatchAt_contentmark e.k e.cid rest hk hk_ne hc hc_ne]]
  rw [scan_not_s_block e.k _ (digits_no115 e.k hk)]
  rw [scan_not_s_block contentIdLit _ contentIdLit_no115]
  rw [scan_not_s_block e.cid _ (digits_no115 e.cid hc)]
  rw [scan_cons_none _ _ (tryMatchAt_not_s 59 _ (by omega))]

/-- `scan` over a well-formed buffer yields one capture per entry, in
buffer order. -/
theorem scan_mkBuffer (l : List Entry) (h : ∀ e ∈ l, entryWf e) :
    scan (mkBuffer l) = l.map fun e => (e.k, e.cid) := by
  induction l with
  | nil => rfl
  | cons e es ih =>
    have he := h e (List.mem_cons_self _ _)
    have ih' := ih fun x hx => h x (List.mem_cons_of_mem _ hx)
    rw [show mkBuffer (e :: es) = segmentBytes e ++ mkBuffer es from rfl,
        scan_segment e _ he, ih', List.map_cons]

/-- An `s`-headed pattern cannot occur at a byte other than `s`. -/
theorem occursAt_not_s (b : Nat) (q t : List Nat) (hb : b ≠ 115) :
    occursAt (115 :: q) (b :: t) = false := by
  have h1 : ¬ (115 : Nat) = b := fun h => hb h.symm
  simp [occursAt, stripLit, h1]

/-- A failed occurrence at the head position shifts `findSub` by one. -/
theorem findSub_cons_false (pat : List Nat) (b : Nat) (bs : List Nat)
    (h : occursAt pat (b :: bs) = false) :
    findSub pat (b :: bs) = (findSub pat bs).map (· + 1) := by
  simp [findSub, h]

/-- `findSub` of an `s`-headed pattern skips any block free of `s`,
shifting the found index by the block's length. -/
theorem findSub_not_s_block (x : List Nat) (q y : List Nat) (hx : ∀ b ∈ x, b ≠ 115) :
    findSub (115 :: q) (x ++ y) = (findSub (115 :: q) y).map (· + x.length) := by
  induction x with
  | nil =>
    rw [List.nil_append]
    cases findSub (115 :: q) y <;> simp
  | cons b bs ih =>
    have hb := hx b (List.mem_cons_self _ _)
    have ih' := ih fun z hz => hx z (List.mem_cons_of_mem _ hz)
    rw [List.cons_append, findSub_cons_false _ _ _ (occursAt_not_s b _ _ hb), ih']
    cases findSub (115 :: q) y <;> simp
    omega

/-- The companion pattern for section index `k` does not occur at the
companion marker of a different section index `k'`. -/
theorem occursAt_idmark_ne (k k' w : List Nat) (hk : allDigits k = true)
    (hk' : allDigits k' = true) (hne : k' ≠ k) :
    occursAt (115 :: (k ++ idLit)) (115 :: (k' ++ (idLit ++ w))) = false := by
  have hstep : stripLit (115 :: (k ++ idLit)) (115 :: (k' ++ (idLit ++ w))) =
      stripLit (k ++ idLit) (k' ++ (idLit ++ w)) := by simp [stripLit]
  unfold occursAt
  rw [hstep]
  cases h : stripLit (k ++ idLit) (k' ++ (idLit ++ w)) with
  | none => rfl
  | some r =>
    exfalso
    have hshape : stripLit (k ++ 46 :: [105, 100, 61]) (k' ++ 46 :: (105 :: 100 :: 61 :: w)) =
        some r := by
      have e1 : k ++ 46 :: [105, 100, 61] = k ++ idLit := by simp [idLit]
      have e2 : k' ++ 46 :: (105 :: 100 :: 61 :: w) = k' ++ (idLit ++ w) := by simp [idLit]
      rw [e1, e2]; exact h
    exact hne (stripLit_digits_inj k k' _ _ r hk hk' hshape).1.symm

/-- The companion pattern never occurs at a content marker: after the
digits the buffer shows `.contentId=` where the pattern requires `.id=`. -/
theorem occursAt_contentmark_none (k k' w : List Nat) (hk : allDigits k = true)
    (hk' : allDigits k' = true) :
    occursAt (115 :: (k ++ idLit)) (115 :: (k' ++ (contentIdLit ++ w))) = false := by
  have hstep : stripLit (115 :: (k ++ idLit)) (115 :: (k' ++ (contentIdLit ++ w))) =
      stripLit (k ++ idLit) (k' ++ (contentIdLit ++ w)) := by simp [stripLit]
  unfold occursAt
  rw [hstep]
  cases h : stripLit (k ++ idLit) (k' ++ (contentIdLit ++ w)) with
  | none => rfl
  | some r =>
    exfalso
    have hshape : stripLit (k ++ 46 :: [105, 100, 61])
        (k' ++ 46 :: (99 :: 111 :: 110 :: 116 :: 101 :: 110 :: 116 :: 73 :: 100 :: 61 :: w)) =
        some r := by
      have e1 : k ++ 46 :: [105, 100, 61] = k ++ idLit := by simp [idLit]
      have e2 : k' ++ 46 :: (99 :: 111 :: 110 :: 116 :: 101 :: 110 :: 116 :: 73 :: 100 ::
          61 :: w) = k' ++ (contentIdLit ++ w) := by simp [contentIdLit]
      rw [e1, e2]; exact h
    have := (stripLit_digits_inj k k' _ _ r hk hk' hshape).2
    simp [stripLit] at this

/-- The companion pattern for `k` occurs nowhere in the segment of an
entry with a different section index: `findSub` skips the whole segment. -/
theorem findSub_seg_skip (e' : Entry) (k y : List Nat) (he' : entryWf e')
    (hk : allDigits k = true) (hne : e'.k ≠ k) :
    findSub (115 :: (k ++ idLit)) (segmentBytes e' ++ y) =
      (findSub (115 :: (k ++ idLit)) y).map (· + (segmentBytes e').length) := by
  obtain ⟨hk_ne', hk', hc_ne', hc', hs'⟩ := he'
  simp only [segmentBytes, List.cons_append, List.append_assoc, List.singleton_append,
    List.nil_append]
  rw [findSub_cons_false _ _ _ (occursAt_idmark_ne k e'.k _ hk hk' hne),
      findSub_not_s_block e'.k _ _ (digits_no115 e'.k hk'),
      findSub_not_s_block idLit _ _ idLit_no115,
      findSub_not_s_block e'.sid _ _ (digits_no115 e'.sid hs'),
      findSub_cons_false _ _ _ (occursAt_not_s 59 _ _ (by omega)),
      findSub_cons_false _ _ _ (occursAt_contentmark_none k e'.k _ hk hk'),
      findSub_not_s_block e'.k _ _ (digits_no115 e'.k hk'),
      findSub_not_s_block contentIdLit _ _ contentIdLit_no115,
      findSub_not_s_block e'.cid _ _ (digits_no115 e'.cid hc'),
      findSub_cons_false _ _ _ (occursAt_not_s 59 _ _ (by omega))]
  cases findSub (115 :: (k ++ idLit)) y <;>
    simp [idLit, contentIdLit, List.length_append]
  omega

/-- `mkBuffer` distributes over append. -/
theorem mkBuffer_append (a b : List Entry) :
    mkBuffer (a ++ b) = mkBuffer a ++ mkBuffer b := by
  induction a with
  | nil => rfl
  | cons e es ih => simp [mkBuffer, ih]

/-- The companion pattern for `k` occurs nowhere in the buffer of entries
whose section indices all differ from `k`. -/
theorem findSub_mkBuffer_skip (l₁ : List Entry) (k y : List Nat)
    (hwf : ∀ e' ∈ l₁, entryWf e') (hks : ∀ e' ∈ l₁, e'.k ≠ k)
    (hk : allDigits k = true) :
    findSub (115 :: (k ++ idLit)) (mkBuffer l₁ ++ y) =
      (findSub (115 :: (k ++ idLit)) y).map (· + (mkBuffer l₁).length) := by
  induction l₁ with
  | nil =>
    rw [show mkBuffer ([] : List Entry) ++ y = y from by simp [mkBuffer]]
    cases findSub (115 :: (k ++ idLit)) y <;> simp [mkBuffer]
  | cons e' es ih =>
    have he' := hwf e' (List.mem_cons_self _ _)
    have hne' := hks e' (List.mem_cons_self _ _)
    have ih' := ih (fun x hx => hwf x (List.mem_cons_of_mem _ hx))
      (fun x hx => hks x (List.mem_cons_of_mem _ hx))
    rw [show mkBuffer (e' :: es) ++ y = segmentBytes e' ++ (mkBuffer es ++ y) from by
        simp [mkBuffer],
      findSub_seg_skip e' k _ he' hk hne', ih']
    cases findSub (115 :: (k ++ idLit)) y <;>
      simp [mkBuffer, List.length_append]
    omega

/-- The companion pattern occurs at index 0 of the entry's own segment. -/
theorem findSub_own_seg (e : Entry) (B : List Nat) :
    findSub (115 :: (e.k ++ idLit)) (segmentBytes e ++ B) = some 0 := by
  have hocc : occursAt (115 :: (e.k ++ idLit))
      (115 :: (e.k ++ (idLit ++ (e.sid ++ 59 :: (115 :: (e.k ++ (contentIdLit ++
        (e.cid ++ 59 :: B)))))))) = true := by
    have hshape : (115 :: (e.k ++ (idLit ++ (e.sid ++ 59 :: (115 :: (e.k ++ (contentIdLit ++
        (e.cid ++ 59 :: B)))))))) = (115 :: (e.k ++ idLit)) ++
          (e.sid ++ 59 :: (115 :: (e.k ++ (contentIdLit ++ (e.cid ++ 59 :: B))))) := by
      simp
    rw [hshape]
    unfold occursAt
    rw [stripLit_append]
    rfl
  have harg : segmentBytes e ++ B =
      115 :: (e.k ++ (idLit ++ (e.sid ++ 59 :: (115 :: (e.k ++ (contentIdLit ++
        (e.cid ++ 59 :: B))))))) := by
    simp [segmentBytes]
  rw [harg]
  simp [findSub, hocc]

/-- `memchr` finds the first separator after a separator-free run. -/
theorem memchr_before (b : Nat) (u v : List Nat) (hu : ∀ x ∈ u, x ≠ b) :
    memchr b (u ++ b :: v) = some u.length := by
  induction u with
  | nil => simp [memchr]
  | cons x xs ih =>
    have hx := hu x (List.mem_cons_self _ _)
    simp [memchr, hx, ih fun y hy => hu y (List.mem_cons_of_mem _ hy)]

/-- The companion lookup for an entry of a well-formed buffer finds the
entry's own `s{k}.id=` marker first and reads exactly its section id. -/
theorem getSectionId_mkBuffer (l₁ : List Entry) (e : Entry) (l₂ : List Entry)
    (hwf : buffersWf (l₁ ++ e :: l₂)) :
    getSectionId (mkBuffer (l₁ ++ e :: l₂)) e.k = .ok e.sid := by
  obtain ⟨hall, hnd⟩ := hwf
  have he : entryWf e := hall e (by simp)
  obtain ⟨hk_ne, hk, hc_ne, hc, hs⟩ := he
  have hl₁ : ∀ x ∈ l₁, entryWf x := fun x hx => hall x (by simp [hx])
  have hks : ∀ x ∈ l₁, x.k ≠ e.k := by
    intro x hx
    have hmap := hnd
    rw [List.map_append] at hmap
    have hdisj := (List.nodup_append.mp hmap).2.2
    intro heq
    exact hdisj (List.mem_map_of_mem Entry.k hx) (by simp [heq])
  have hbuf : mkBuffer (l₁ ++ e :: l₂) = mkBuffer l₁ ++ (segmentBytes e ++ mkBuffer l₂) := by
    rw [mkBuffer_append]; rfl
  have hfind : findSub (115 :: (e.k ++ idLit)) (mkBuffer (l₁ ++ e :: l₂)) =
      some (mkBuffer l₁).length := by
    rw [hbuf, findSub_mkBuffer_skip l₁ e.k _ hl₁ hks hk, findSub_own_seg e (mkBuffer l₂)]
    simp
  simp only [getSectionId, hfind]
  have hdrop : (mkBuffer (l₁ ++ e :: l₂)).drop
      ((mkBuffer l₁).length + (115 :: (e.k ++ idLit)).length) =
      e.sid ++ 59 :: (115 :: (e.k ++ (contentIdLit ++ (e.cid ++ 59 :: mkBuffer l₂)))) := by
    have h1 : mkBuffer (l₁ ++ e :: l₂) =
        (mkBuffer l₁ ++ 115 :: (e.k ++ idLit)) ++
          (e.sid ++ 59 :: (115 :: (e.k ++ (contentIdLit ++ (e.cid ++ 59 :: mkBuffer l₂))))) := by
      rw [hbuf]
      simp [segmentBytes]
    rw [h1,
      show (mkBuffer l₁).length + (115 :: (e.k ++ idLit)).length =
        (mkBuffer l₁ ++ 115 :: (e.k ++ idLit)).length from (List.length_append _ _).symm,
      List.drop_left]
  rw [hdrop]
  have h59 : ∀ x ∈ e.sid, x ≠ 59 := fun x hx => by
    have := digitB_facts x (List.all_eq_true.mp hs x hx)
    omega
  rw [memchr_before 59 e.sid _ h59]
  simp [List.take_left]

/-- C4: for every buffer made of well-formed `s{k}.id={sid};` followed by
`s{k}.contentId={cid};` marker pairs (numeric-text tokens, distinct
section indices), `get_ids` succeeds and returns exactly one
`(content_id, section_id)` pair per marker pair, ordered by the first-seen
position of the contentId marker, each section id being the byte run after
`s{k}.id=` up to the `;`; determinism holds as `get_ids` is a function of
the buffer. -/
theorem get_ids_wellformed (l : List Entry) (h : buffersWf l) :
    get_ids (mkBuffer l) = .ok (l.map fun e => (e.cid, e.sid)) := by
  unfold get_ids
  rw [scan_mkBuffer l h.1]
  refine mapE_map_ok _ _ _ l ?_
  intro e he
  obtain ⟨l₁, l₂, rfl⟩ := List.append_of_mem he
  rw [getSectionId_mkBuffer l₁ e l₂ h]
  rfl

/-- C4, witnessed at a two-pair buffer
`s1.id=45;s1.contentId=23;s2.id=89;s2.contentId=67;`. -/
theorem get_ids_wellformed_holds :
    buffersWf [⟨[49], [50, 51], [52, 53]⟩, ⟨[50], [54, 55], [56, 57]⟩] ∧
    get_ids (mkBuffer [⟨[49], [50, 51], [52, 53]⟩, ⟨[50], [54, 55], [56, 57]⟩]) =
      .ok [([50, 51], [52, 53]), ([54, 55], [56, 57])] :=
  ⟨by decide, get_ids_wellformed [⟨[49], [50, 51], [52, 53]⟩, ⟨[50], [54, 55], [56, 57]⟩]
    (by decide)⟩

/-- C5: for every buffer in which the contentId regex captures a pair
whose companion `s{k}.id=` marker occurs nowhere, `get_ids` fails with the
structural panic message `No section ID found` — the pair is neither
silently omitted nor mangled into an unrelated error. -/
theorem get_ids_missing_companion (buf k c : List Nat)
    (hmem : (k, c) ∈ scan buf)
    (hmiss : findSub (115 :: (k ++ idLit)) buf = none) :
    get_ids buf = .error noSectionMsg := by
  unfold get_ids
  refine mapE_error_of_mem _ noSectionMsg ?_ (scan buf) (k, c) hmem ?_
  · intro p
    cases h : findSub (115 :: (p.1 ++ idLit)) buf with
    | none => left; simp [getSectionId, h, Except.map]
    | some i =>
      right
      simp [getSectionId, h, Except.map]
  · simp [getSectionId, hmiss, Except.map]

/-- C5, witnessed at the buffer `s1.contentId=23;`, whose companion
`s1.id=` marker is absent. -/
theorem get_ids_missing_companion_holds :
    ([49], [50, 51]) ∈
      scan [115, 49, 46, 99, 111, 110, 116, 101, 110, 116, 73, 100, 61, 50, 51, 59] ∧
    get_ids [115, 49, 46, 99, 111, 110, 116, 101, 110, 116, 73, 100, 61, 50, 51, 59] =
      .error noSectionMsg :=
  ⟨by decide,
    get_ids_missing_companion [115, 49, 46, 99, 111, 110, 116, 101, 110, 116, 73, 100,
      61, 50, 51, 59] [49] [50, 51] (by decide) (by decide)⟩
